import Mathlib

/-!
Verification of the admission-control and key-store subsystem of the
YouTube downloader API (src/main.py). The Python module keeps two global
dictionaries: `api_keys_db : Dict[str, APIKeyData]` and
`rate_limit_tracker : Dict[str, List[float]]`. We embed dictionaries as
insertion-ordered association lists (Python dicts preserve insertion order;
assignment to an existing key updates in place) and timestamps as integers
(seconds; `time.time()` values, compared only by subtraction against the
60-second window and the 3600-second TTL).
-/

namespace YTApi

/-- Embedding of the pydantic model `APIKeyData` (src/main.py lines 60-67).
Fields `created_at` and `last_used` are ISO timestamp strings in the source
and stay opaque strings here; `requests_per_minute` and `total_requests`
are Python ints, embedded as `Int`. -/
structure APIKeyData where
  key : String
  owner : String
  requests_per_minute : Int
  is_active : Bool
  total_requests : Int
  created_at : String
  last_used : Option String
deriving DecidableEq, Repr

/-- The in-memory key database `api_keys_db`: an insertion-ordered map from
key string to record, as a Python dict. -/
abbrev Db : Type := List (String × APIKeyData)

/-- The rate-limit state `rate_limit_tracker`: key string to list of request
timestamps. A key absent from the tracker behaves as the empty list
(src/main.py lines 112-113 create the empty entry on demand). -/
abbrev Tracker : Type := List (String × List Int)

/-- Python dict lookup `d[k]` / `k in d`. -/
def lookupDb : Db → String → Option APIKeyData
  | [], _ => none
  | (k', r) :: rest, k => if k' = k then some r else lookupDb rest k

/-- Python dict assignment `d[k] = r`: update in place if present, else append. -/
def insertDb : Db → String → APIKeyData → Db
  | [], k, r => [(k, r)]
  | (k', r') :: rest, k, r =>
      if k' = k then (k, r) :: rest else (k', r') :: insertDb rest k r

/-- Python `del d[k]`. -/
def eraseDb : Db → String → Db
  | [], _ => []
  | (k', r') :: rest, k =>
      if k' = k then rest else (k', r') :: eraseDb rest k

/-- Tracker lookup with the on-demand empty default of src/main.py lines 112-113. -/
def lookupTracker : Tracker → String → List Int
  | [], _ => []
  | (k', w) :: rest, k => if k' = k then w else lookupTracker rest k

/-- Tracker assignment `rate_limit_tracker[k] = w`. -/
def setTracker : Tracker → String → List Int → Tracker
  | [], k, w => [(k, w)]
  | (k', w') :: rest, k, w =>
      if k' = k then (k, w) :: rest else (k', w') :: setTracker rest k w

/-- One serialized snapshot entry as read back by `load_keys_from_file`
(src/main.py lines 88-93): a JSON object that reconstructs an `APIKeyData`
via `APIKeyData(**value)`; or a value whose splat raises `TypeError`
(e.g. a non-mapping), which line 92 catches; or a JSON object whose splat
succeeds but whose pydantic validation fails (e.g. the empty object `{}`
missing required fields), raising `ValidationError` — a `ValueError`,
which line 92 does NOT catch. -/
inductive RawEntry where
  | ok (r : APIKeyData)
  | badType
  | badValidation
deriving DecidableEq, Repr

/-- The content of the snapshot file as seen by `load_keys_from_file`:
text that `json.load` rejects (`JSONDecodeError`, caught by line 92);
valid JSON that is not an object (e.g. a top-level array), on which
`data.items()` raises `AttributeError`, which line 92 does NOT catch;
or an object, a keyed list of entries. -/
inductive RawContent where
  | notJson
  | nonObject
  | entries (l : List (String × RawEntry))
deriving DecidableEq

/-- Outcome of `load_keys_from_file`: a normal return carrying the store
and whether the warning of line 93 was printed, or `fatal` when an
exception not named in line 92 (`ValidationError`, `AttributeError`)
propagates out of the loader and aborts startup. -/
inductive LoadResult where
  | ok (db : Db) (warned : Bool)
  | fatal
deriving DecidableEq, Repr

/-- The snapshot written by `save_keys_to_file` (src/main.py lines 78-81):
`json.dump({key: data.dict() ...})`. Every `APIKeyData` field is a JSON
primitive (str / int / bool / None), so the serialized record is embedded
as the record itself, wrapped as a well-formed entry. -/
def save_keys_to_file (db : Db) : List (String × RawEntry) :=
  db.map (fun p => (p.1, RawEntry.ok p.2))

/-- Loop body of `load_keys_from_file` (src/main.py lines 90-93): insert
entries in order; on the first `TypeError` entry the exception aborts the
loop, is caught, and the warning of line 93 is printed — entries inserted
before the failure stay in `api_keys_db`; on a `ValidationError` entry the
exception escapes the `except` clause of line 92 and propagates (fatal). -/
def loadEntries : Db → List (String × RawEntry) → LoadResult
  | db, [] => LoadResult.ok db false
  | db, (k, RawEntry.ok r) :: rest => loadEntries (insertDb db k r) rest
  | db, (_, RawEntry.badType) :: _ => LoadResult.ok db true
  | _, (_, RawEntry.badValidation) :: _ => LoadResult.fatal

/-- `load_keys_from_file` (src/main.py lines 83-93). `none` content means
the file does not exist (lines 85-86: return without touching the db).
`JSONDecodeError` and `TypeError` are caught and produce a warning;
non-object JSON (`AttributeError` from `data.items()`) and validation
failures propagate and abort startup. -/
def load_keys_from_file (content : Option RawContent) (db : Db) : LoadResult :=
  match content with
  | none => LoadResult.ok db false
  | some RawContent.notJson => LoadResult.ok db true
  | some RawContent.nonObject => LoadResult.fatal
  | some (RawContent.entries l) => loadEntries db l

/-- The rate-limiting step of `get_api_key` (src/main.py lines 110-124) as
the spec's `tryAcquire`: prune entries with `now - t ≥ 60` (line 116 keeps
`current_time - t < 60`), then refuse without appending when the pruned
length reaches the quota (line 118), else append `now`.
Returns (allowed?, new window). -/
def tryAcquire (window : List Int) (quota : Int) (now : Int) : Bool × List Int :=
  let w := window.filter (fun t => now - t < 60)
  if (w.length : Int) ≥ quota then (false, w)
  else (true, w ++ [now])

/-- Outcome of the admission dependency `get_api_key`: the raised
`HTTPException` status (401 / 403 / 429) or the returned record. -/
inductive AdmResult where
  | Unauthorized
  | Forbidden
  | Throttled
  | Admitted (rec : APIKeyData)
deriving DecidableEq, Repr

/-- The two global dicts mutated by the admission path. -/
structure AdmState where
  db : Db
  tracker : Tracker
deriving DecidableEq

/-- Result of one `get_api_key` call: outcome, the two dicts afterwards,
and the snapshot written to disk during the call (`none`: `get_api_key`
never calls `save_keys_to_file`, src/main.py lines 129-130 deliberately
skip saving). -/
structure AdmOut where
  result : AdmResult
  state : AdmState
  written : Option (List (String × RawEntry))
deriving DecidableEq

/-- `get_api_key` (src/main.py lines 95-132): 401 when the key is absent
(line 97); 403 when inactive (line 104); prune + quota check + append via
the rate-limiting block (lines 110-124), writing the pruned window back
even on 429 (line 116 assigns before the check on line 118); on success
increment `total_requests` and set `last_used` (lines 127-128). -/
def get_api_key (st : AdmState) (api_key : String) (now : Int) (nowIso : String) : AdmOut :=
  match lookupDb st.db api_key with
  | none => ⟨AdmResult.Unauthorized, st, none⟩
  | some key_data =>
    if key_data.is_active = false then
      ⟨AdmResult.Forbidden, st, none⟩
    else
      match tryAcquire (lookupTracker st.tracker api_key) key_data.requests_per_minute now with
      | (false, w) =>
          ⟨AdmResult.Throttled, ⟨st.db, setTracker st.tracker api_key w⟩, none⟩
      | (true, w) =>
          let kd := { key_data with
                        total_requests := key_data.total_requests + 1,
                        last_used := some nowIso }
          ⟨AdmResult.Admitted kd,
           ⟨insertDb st.db api_key kd, setTracker st.tracker api_key w⟩, none⟩

/-- Results of running a sequence of `get_api_key` calls for one key,
threading the state: the (now, iso-timestamp) of each call in order. -/
def admissionResults (st : AdmState) (key : String) : List (Int × String) → List AdmResult
  | [] => []
  | (n, i) :: rest =>
      let out := get_api_key st key n i
      out.result :: admissionResults out.state key rest

/-- Outcome of an admin mutation on one key: success, 404, or the 400
raised for the master key. -/
inductive AdminStatus where
  | Ok
  | NotFound
  | Protected
deriving DecidableEq, Repr

/-- Result of an admin mutation: HTTP-level outcome, the database
afterwards, and the snapshot written to disk (`none` when the handler
raised before reaching `save_keys_to_file`). -/
structure AdminOut where
  result : AdminStatus
  db : Db
  written : Option (List (String × RawEntry))
deriving DecidableEq

/-- `generate_api_key` (src/main.py lines 354-367). The source builds
`new_key = "ytapi_" + token_urlsafe(24)`; the random token is the `suffix`
argument here. The new record is active with `total_requests = 0` and
`created_at` the current time (the pydantic default). Always saves. -/
def generate_api_key (db : Db) (suffix : String) (owner : String)
    (requests_per_minute : Int) (createdAt : String) : APIKeyData × AdminOut :=
  let new_key := "ytapi_" ++ suffix
  let key_data : APIKeyData :=
    ⟨new_key, owner, requests_per_minute, true, 0, createdAt, none⟩
  let db' := insertDb db new_key key_data
  (key_data, ⟨AdminStatus.Ok, db', some (save_keys_to_file db')⟩)

/-- `toggle_api_key_status` (src/main.py lines 376-389): 404 when absent,
400 for the master key, else flip `is_active` and save. `mk` is the
configured `MASTER_API_KEY`. -/
def toggle_api_key_status (mk : String) (db : Db) (key_to_update : String) : AdminOut :=
  match lookupDb db key_to_update with
  | none => ⟨AdminStatus.NotFound, db, none⟩
  | some kd =>
    if key_to_update = mk then ⟨AdminStatus.Protected, db, none⟩
    else
      let db' := insertDb db key_to_update { kd with is_active := !kd.is_active }
      ⟨AdminStatus.Ok, db', some (save_keys_to_file db')⟩

/-- `delete_api_key` (src/main.py lines 391-404): 404 when absent, 400 for
the master key, else delete and save. -/
def delete_api_key (mk : String) (db : Db) (key_to_delete : String) : AdminOut :=
  match lookupDb db key_to_delete with
  | none => ⟨AdminStatus.NotFound, db, none⟩
  | some _ =>
    if key_to_delete = mk then ⟨AdminStatus.Protected, db, none⟩
    else
      let db' := eraseDb db key_to_delete
      ⟨AdminStatus.Ok, db', some (save_keys_to_file db')⟩

/-- The record `startup_event` synthesizes for the master key
(src/main.py lines 164-169): owner "master", quota 100, active. -/
def masterRecord (mk : String) (createdAt : String) : APIKeyData :=
  ⟨mk, "master", 100, true, 0, createdAt, none⟩

/-- The guard of src/main.py line 163:
`any(k for k, v in api_keys_db.items() if v.owner == "master")`. The
generator yields the KEYS of master-owned records and `any` tests their
truthiness, so a master-owned record stored under the falsy empty-string
key does not count. -/
def hasMasterOwner (db : Db) : Bool :=
  db.any (fun p => p.2.owner == "master" && !(p.1 == ""))

/-- The master-key synthesis step of `startup_event` (src/main.py lines
162-172), the spec's `ensureMaster`: if no record has owner "master",
insert the master record under `MASTER_API_KEY` and save; otherwise do
nothing and write nothing. -/
def ensureMaster (mk : String) (createdAt : String) (db : Db) :
    Db × Option (List (String × RawEntry)) :=
  if hasMasterOwner db then (db, none)
  else
    let db' := insertDb db mk (masterRecord mk createdAt)
    (db', some (save_keys_to_file db'))

/-- `shutdown_event` (src/main.py lines 178-182): save the whole db. The
result is the snapshot written. -/
def shutdown_event (db : Db) : Option (List (String × RawEntry)) :=
  some (save_keys_to_file db)

/-- A file in `TEMP_DOWNLOAD_DIR` as the reaper sees it: name, last
modification time (`st_mtime`), whether it is a regular file
(`os.path.isfile`), and whether `os.remove` succeeds on it. -/
structure TempFile where
  name : String
  mtime : Int
  isFile : Bool
  removable : Bool
deriving DecidableEq, Repr

/-- `MAX_FILE_AGE_SECONDS` (src/main.py line 24). -/
def MAX_FILE_AGE_SECONDS : Int := 3600

/-- One sweep of `cleanup_temp_files` (src/main.py lines 143-152): walk
the directory listing in order; delete each regular file with
`st_mtime < now - MAX_FILE_AGE_SECONDS`. The `try` wraps the whole loop,
so the first failing `os.remove` raises out of the loop to line 151,
which logs it; files after the failing one are not visited in this sweep.
Returns (files still present, whether an error was logged). -/
def cleanup_temp_files_once (now : Int) : List TempFile → List TempFile × Bool
  | [] => ([], false)
  | f :: rest =>
    if f.isFile && decide (f.mtime < now - MAX_FILE_AGE_SECONDS) then
      if f.removable then cleanup_temp_files_once now rest
      else (f :: rest, true)
    else
      let out := cleanup_temp_files_once now rest
      (f :: out.1, out.2)

/-- The store states reachable by the program's own operations from a
fresh start (no snapshot file): `startup_event` with an empty load, then
any interleaving of admissions and admin mutations. `mk` is the configured
`MASTER_API_KEY`; the `generate` step's key is `"ytapi_" ++ suffix` for an
arbitrary random suffix, exactly as the source builds it. -/
inductive Reachable (mk : String) : AdmState → Prop where
  | boot (t : String) :
      Reachable mk ⟨(ensureMaster mk t []).1, []⟩
  | request (st : AdmState) (key : String) (now : Int) (iso : String) :
      Reachable mk st → Reachable mk (get_api_key st key now iso).state
  | generate (st : AdmState) (suffix owner : String) (rpm : Int) (t : String) :
      Reachable mk st →
      Reachable mk ⟨(generate_api_key st.db suffix owner rpm t).2.db, st.tracker⟩
  | toggle (st : AdmState) (key : String) :
      Reachable mk st →
      Reachable mk ⟨(toggle_api_key_status mk st.db key).db, st.tracker⟩
  | del (st : AdmState) (key : String) :
      Reachable mk st →
      Reachable mk ⟨(delete_api_key mk st.db key).db, st.tracker⟩

/-- Number of records whose owner is "master". -/
def countMasterOwner (db : Db) : Nat :=
  (db.filter (fun p => p.2.owner == "master")).length

/-! ### Association-list lemmas -/

theorem lookupDb_insertDb (db : Db) (k : String) (r : APIKeyData) (k2 : String) :
    lookupDb (insertDb db k r) k2 = if k = k2 then some r else lookupDb db k2 := by
  induction db with
  | nil => simp [insertDb, lookupDb]
  | cons hd tl ih =>
    obtain ⟨k', r'⟩ := hd
    by_cases hk : k' = k
    · subst hk
      simp only [insertDb, if_pos rfl, lookupDb]
      by_cases h2 : k' = k2
      · subst h2; simp
      · simp [h2, lookupDb, if_neg h2]
    · simp only [insertDb, if_neg hk, lookupDb]
      by_cases h2 : k' = k2
      · subst h2
        have : ¬ k = k' := fun h => hk h.symm
        simp [this]
      · simp [h2, ih]

theorem lookupDb_eraseDb (db : Db) (k k2 : String) (h : k2 ≠ k) :
    lookupDb (eraseDb db k) k2 = lookupDb db k2 := by
  induction db with
  | nil => simp [eraseDb]
  | cons hd tl ih =>
    obtain ⟨k', r'⟩ := hd
    by_cases hk : k' = k
    · subst hk
      have : ¬ k' = k2 := fun hc => h (hc.symm)
      simp [eraseDb, lookupDb, this]
    · simp only [eraseDb, if_neg hk, lookupDb]
      by_cases h2 : k' = k2
      · simp [h2]
      · simp [h2, ih]

theorem lookupTracker_setTracker (tr : Tracker) (k : String) (w : List Int) (k2 : String) :
    lookupTracker (setTracker tr k w) k2 = if k = k2 then w else lookupTracker tr k2 := by
  induction tr with
  | nil => simp [setTracker, lookupTracker]
  | cons hd tl ih =>
    obtain ⟨k', w'⟩ := hd
    by_cases hk : k' = k
    · subst hk
      simp only [setTracker, if_pos rfl, lookupTracker]
      by_cases h2 : k' = k2
      · subst h2; simp
      · simp [h2, lookupTracker, if_neg h2]
    · simp only [setTracker, if_neg hk, lookupTracker]
      by_cases h2 : k' = k2
      · subst h2
        have : ¬ k = k' := fun h => hk h.symm
        simp [this]
      · simp [h2, ih]

theorem mem_insertDb (db : Db) (k : String) (r : APIKeyData) :
    (k, r) ∈ insertDb db k r := by
  induction db with
  | nil => simp [insertDb]
  | cons hd tl ih =>
    obtain ⟨k', r'⟩ := hd
    by_cases hk : k' = k
    · simp [insertDb, hk]
    · simp only [insertDb, if_neg hk]
      exact List.mem_cons_of_mem _ ih

theorem lookupDb_mem (db : Db) (k : String) (r : APIKeyData)
    (h : lookupDb db k = some r) : (k, r) ∈ db := by
  induction db with
  | nil => simp [lookupDb] at h
  | cons hd tl ih =>
    obtain ⟨k', r'⟩ := hd
    by_cases hk : k' = k
    · subst hk
      simp only [lookupDb, if_true, eq_self_iff_true, Option.some.injEq] at h
      subst h; exact List.mem_cons_self _ _
    · simp only [lookupDb, if_neg hk] at h
      exact List.mem_cons_of_mem _ (ih h)

theorem insertDb_of_not_mem (db : Db) (k : String) (r : APIKeyData)
    (h : k ∉ db.map Prod.fst) : insertDb db k r = db ++ [(k, r)] := by
  induction db with
  | nil => simp [insertDb]
  | cons hd tl ih =>
    obtain ⟨k', r'⟩ := hd
    simp only [List.map_cons, List.mem_cons] at h
    push_neg at h
    have hk : ¬ k' = k := fun hc => h.1 hc.symm
    simp [insertDb, hk, ih h.2]

theorem hasMasterOwner_insertDb (db : Db) (k : String) (r : APIKeyData)
    (h : r.owner = "master") (hk : k ≠ "") :
    hasMasterOwner (insertDb db k r) = true := by
  have hm := mem_insertDb db k r
  simp only [hasMasterOwner, List.any_eq_true]
  exact ⟨(k, r), hm, by simp [h, hk]⟩

/-! ### Snapshot round-trip lemmas -/

theorem loadEntries_save (l : List (String × APIKeyData)) (db : Db) :
    loadEntries db (save_keys_to_file l)
      = LoadResult.ok (l.foldl (fun d p => insertDb d p.1 p.2) db) false := by
  induction l generalizing db with
  | nil => simp [save_keys_to_file, loadEntries]
  | cons hd tl ih =>
    obtain ⟨k, r⟩ := hd
    simp only [save_keys_to_file, List.map_cons, loadEntries, List.foldl_cons]
    exact ih (insertDb db k r)

theorem foldl_insertDb (l : List (String × APIKeyData)) (db : Db)
    (hnd : (l.map Prod.fst).Nodup)
    (hdisj : ∀ k, k ∈ l.map Prod.fst → k ∉ db.map Prod.fst) :
    l.foldl (fun d p => insertDb d p.1 p.2) db = db ++ l := by
  induction l generalizing db with
  | nil => simp
  | cons hd tl ih =>
    obtain ⟨k, r⟩ := hd
    simp only [List.foldl_cons]
    have hk_db : k ∉ db.map Prod.fst := hdisj k (by simp)
    rw [insertDb_of_not_mem db k r hk_db]
    simp only [List.map_cons, List.nodup_cons] at hnd
    have ih2 := ih (db ++ [(k, r)]) hnd.2 ?hd2
    case hd2 =>
      intro k2 hk2
      simp only [List.map_append, List.mem_append, List.map_cons, List.map_nil,
        List.mem_singleton]
      push_neg
      refine ⟨hdisj k2 (by simp [hk2]), ?_⟩
      intro hc; subst hc; exact hnd.1 hk2
    rw [ih2, List.append_assoc]
    rfl

/-! ### Branch lemmas for the admission gate -/

theorem get_api_key_absent (st : AdmState) (key : String) (now : Int) (iso : String)
    (h : lookupDb st.db key = none) :
    get_api_key st key now iso = ⟨AdmResult.Unauthorized, st, none⟩ := by
  simp [get_api_key, h]

theorem get_api_key_inactive (st : AdmState) (key : String) (now : Int) (iso : String)
    (r : APIKeyData) (h : lookupDb st.db key = some r) (ha : r.is_active = false) :
    get_api_key st key now iso = ⟨AdmResult.Forbidden, st, none⟩ := by
  simp [get_api_key, h, ha]

theorem get_api_key_throttled (st : AdmState) (key : String) (now : Int) (iso : String)
    (r : APIKeyData) (h : lookupDb st.db key = some r) (ha : r.is_active = true)
    (hq : (((lookupTracker st.tracker key).filter (fun t => now - t < 60)).length : Int)
            ≥ r.requests_per_minute) :
    get_api_key st key now iso =
      ⟨AdmResult.Throttled,
       ⟨st.db, setTracker st.tracker key
          ((lookupTracker st.tracker key).filter (fun t => now - t < 60))⟩, none⟩ := by
  simp [get_api_key, h, ha, tryAcquire, hq]

theorem get_api_key_admitted (st : AdmState) (key : String) (now : Int) (iso : String)
    (r : APIKeyData) (h : lookupDb st.db key = some r) (ha : r.is_active = true)
    (hq : (((lookupTracker st.tracker key).filter (fun t => now - t < 60)).length : Int)
            < r.requests_per_minute) :
    get_api_key st key now iso =
      ⟨AdmResult.Admitted { r with total_requests := r.total_requests + 1,
                                   last_used := some iso },
       ⟨insertDb st.db key { r with total_requests := r.total_requests + 1,
                                    last_used := some iso },
        setTracker st.tracker key
          ((lookupTracker st.tracker key).filter (fun t => now - t < 60) ++ [now])⟩,
       none⟩ := by
  have hq2 :
      ¬ ((((lookupTracker st.tracker key).filter (fun t => now - t < 60)).length : Int)
           ≥ r.requests_per_minute) := not_le.mpr hq
  simp [get_api_key, h, ha, tryAcquire, hq2]

theorem admissionResults_inactive (key : String) (r : APIKeyData)
    (ha : r.is_active = false) :
    ∀ (L : List (Int × String)) (st : AdmState), lookupDb st.db key = some r →
      ∀ res ∈ admissionResults st key L, res = AdmResult.Forbidden := by
  intro L
  induction L with
  | nil =>
    intro st _ res hres
    simp [admissionResults] at hres
  | cons hd tl ih =>
    intro st h res hres
    obtain ⟨n, i⟩ := hd
    have heq := get_api_key_inactive st key n i r h ha
    simp only [admissionResults, heq, List.mem_cons] at hres
    rcases hres with h1 | h2
    · exact h1
    · exact ih st h res h2

/-! ### Claim theorems -/

/-- C1: the admission check tests existence, then the active flag, then
the quota, in that order, and returns the first failure: Unauthorized when
the key is absent, Forbidden when present but inactive regardless of the
rate window, Throttled when the limiter denies, Admitted otherwise; and
after deactivating a key via the admin toggle, every subsequent admission
for it returns Forbidden. -/
theorem C1_admission_check_order (st : AdmState) (key : String) (now : Int)
    (iso : String) (mk : String) :
    (lookupDb st.db key = none →
       (get_api_key st key now iso).result = AdmResult.Unauthorized)
    ∧ (∀ r, lookupDb st.db key = some r → r.is_active = false →
         (get_api_key st key now iso).result = AdmResult.Forbidden)
    ∧ (∀ r, lookupDb st.db key = some r → r.is_active = true →
         ((((lookupTracker st.tracker key).filter (fun t => now - t < 60)).length : Int)
            ≥ r.requests_per_minute) →
         (get_api_key st key now iso).result = AdmResult.Throttled)
    ∧ (∀ r, lookupDb st.db key = some r → r.is_active = true →
         ((((lookupTracker st.tracker key).filter (fun t => now - t < 60)).length : Int)
            < r.requests_per_minute) →
         (get_api_key st key now iso).result
           = AdmResult.Admitted { r with total_requests := r.total_requests + 1,
                                         last_used := some iso })
    ∧ (∀ r, lookupDb st.db key = some r → r.is_active = true → key ≠ mk →
         ∀ (L : List (Int × String)) res,
           res ∈ admissionResults
                   ⟨(toggle_api_key_status mk st.db key).db, st.tracker⟩ key L →
           res = AdmResult.Forbidden) := by
  refine ⟨?_, ?_, ?_, ?_, ?_⟩
  · intro h; rw [get_api_key_absent st key now iso h]
  · intro r h ha; rw [get_api_key_inactive st key now iso r h ha]
  · intro r h ha hq; rw [get_api_key_throttled st key now iso r h ha hq]
  · intro r h ha hq; rw [get_api_key_admitted st key now iso r h ha hq]
  · intro r h ha hkey L res hres
    have htog : toggle_api_key_status mk st.db key
        = ⟨AdminStatus.Ok, insertDb st.db key { r with is_active := !r.is_active },
           some (save_keys_to_file (insertDb st.db key { r with is_active := !r.is_active }))⟩ := by
      simp [toggle_api_key_status, h, hkey]
    rw [htog] at hres
    refine admissionResults_inactive key { r with is_active := !r.is_active } ?_ L _ ?_ res hres
    · simp [ha]
    · show lookupDb (insertDb st.db key _) key = _
      rw [lookupDb_insertDb]
      simp

/-- Witness for C1: a concrete store with one active key of quota 2; the
first request is admitted with the usage fields updated. -/
theorem C1_witness :
    lookupDb [("k", (⟨"k", "alice", 2, true, 0, "t0", none⟩ : APIKeyData))] "k"
      = some ⟨"k", "alice", 2, true, 0, "t0", none⟩
    ∧ (get_api_key ⟨[("k", ⟨"k", "alice", 2, true, 0, "t0", none⟩)], []⟩ "k" 100 "i").result
      = AdmResult.Admitted ⟨"k", "alice", 2, true, 1, "t0", some "i"⟩ := by
  refine ⟨by decide, ?_⟩
  exact (C1_admission_check_order
    ⟨[("k", ⟨"k", "alice", 2, true, 0, "t0", none⟩)], []⟩ "k" 100 "i" "mk").2.2.2.1
    ⟨"k", "alice", 2, true, 0, "t0", none⟩ (by decide) rfl (by decide)

/-- C2: tryAcquire first drops every timestamp with now - t ≥ 60, keeps
the rest; when the pruned count reaches the quota it refuses without
appending; otherwise it appends now and allows. With quota 2, three
requests for the same key within one second give Allowed, Allowed,
Throttled. -/
theorem C2_sliding_window :
    (∀ (window : List Int) (quota now t : Int),
        t ∈ (tryAcquire window quota now).2 → (t ∈ window ∧ now - t < 60) ∨ t = now)
    ∧ (∀ (window : List Int) (quota now t : Int),
        t ∈ window → now - t < 60 → t ∈ (tryAcquire window quota now).2)
    ∧ (∀ (window : List Int) (quota now : Int),
        (((window.filter (fun t => now - t < 60)).length : Int) ≥ quota →
          tryAcquire window quota now = (false, window.filter (fun t => now - t < 60))))
    ∧ (∀ (window : List Int) (quota now : Int),
        (((window.filter (fun t => now - t < 60)).length : Int) < quota →
          tryAcquire window quota now
            = (true, window.filter (fun t => now - t < 60) ++ [now])))
    ∧ admissionResults ⟨[("k", ⟨"k", "alice", 2, true, 0, "t0", none⟩)], []⟩ "k"
        [(100, "i1"), (100, "i2"), (100, "i3")]
        = [AdmResult.Admitted ⟨"k", "alice", 2, true, 1, "t0", some "i1"⟩,
           AdmResult.Admitted ⟨"k", "alice", 2, true, 2, "t0", some "i2"⟩,
           AdmResult.Throttled] := by
  refine ⟨?_, ?_, ?_, ?_, by decide⟩
  · intro window quota now t hmem
    unfold tryAcquire at hmem
    by_cases hc : (((window.filter (fun t => now - t < 60)).length : Int) ≥ quota)
    · simp only [hc, if_pos] at hmem
      rcases List.mem_filter.mp hmem with ⟨hw, hlt⟩
      exact Or.inl ⟨hw, by simpa using hlt⟩
    · simp only [hc, if_neg, not_false_iff, List.mem_append, List.mem_singleton] at hmem
      rcases hmem with hmem | hmem
      · rcases List.mem_filter.mp hmem with ⟨hw, hlt⟩
        exact Or.inl ⟨hw, by simpa using hlt⟩
      · exact Or.inr hmem
  · intro window quota now t hw hlt
    unfold tryAcquire
    have hmem : t ∈ window.filter (fun t => now - t < 60) :=
      List.mem_filter.mpr ⟨hw, by simpa using hlt⟩
    by_cases hc : (((window.filter (fun t => now - t < 60)).length : Int) ≥ quota)
    · simpa [hc] using hmem
    · simp only [hc, if_neg, not_false_iff, List.mem_append]
      exact Or.inl hmem
  · intro window quota now hc
    simp [tryAcquire, hc]
  · intro window quota now hc
    have hc2 : ¬ (((window.filter (fun t => now - t < 60)).length : Int) ≥ quota) :=
      not_le.mpr hc
    simp [tryAcquire, hc2]

/-- Witness for C2: with one unexpired timestamp and quota 1, tryAcquire
prunes the expired timestamp and refuses without appending. -/
theorem C2_witness :
    ((([10, 50] : List Int).filter (fun t => (100 : Int) - t < 60)).length : Int) ≥ 1
    ∧ tryAcquire [10, 50] 1 100 = (false, [50]) := by
  refine ⟨by decide, ?_⟩
  have h := C2_sliding_window.2.2.1 [10, 50] 1 100 (by decide)
  rw [h]
  decide

/-- C8: when the account's quota is not positive, the limiter refuses for
every window state and every current time, and the admission check for
such an active key always returns Throttled. -/
theorem C8_quota_nonpositive (window : List Int) (quota now : Int)
    (st : AdmState) (key : String) (r : APIKeyData) (iso : String) :
    (quota ≤ 0 →
       tryAcquire window quota now = (false, window.filter (fun t => now - t < 60)))
    ∧ (lookupDb st.db key = some r → r.is_active = true →
        r.requests_per_minute ≤ 0 →
        (get_api_key st key now iso).result = AdmResult.Throttled) := by
  constructor
  · intro hq
    have hc : (((window.filter (fun t => now - t < 60)).length : Int) ≥ quota) :=
      le_trans hq (Int.ofNat_nonneg _)
    simp [tryAcquire, hc]
  · intro h ha hq
    have hc : (((lookupTracker st.tracker key).filter (fun t => now - t < 60)).length : Int)
        ≥ r.requests_per_minute :=
      le_trans hq (Int.ofNat_nonneg _)
    rw [get_api_key_throttled st key now iso r h ha hc]

/-- Witness for C8: a key with quota 0 is throttled on its first request. -/
theorem C8_witness :
    (0 : Int) ≤ 0
    ∧ (get_api_key ⟨[("k", ⟨"k", "bob", 0, true, 0, "t0", none⟩)], []⟩ "k" 100 "i").result
        = AdmResult.Throttled := by
  refine ⟨le_refl 0, ?_⟩
  exact (C8_quota_nonpositive [] 0 100
    ⟨[("k", ⟨"k", "bob", 0, true, 0, "t0", none⟩)], []⟩ "k"
    ⟨"k", "bob", 0, true, 0, "t0", none⟩ "i").2 (by decide) rfl (by decide)

/-- C10: when the admission check fails, the key database is unchanged (so
no totalRequests or lastUsedAt changes), the tracker is either untouched
or only pruned of expired timestamps for the presented key (never gains a
timestamp), and no snapshot is written; the database changes only on
Admitted. -/
theorem C10_failure_preserves_state (st : AdmState) (key : String) (now : Int)
    (iso : String) :
    ((∀ r, (get_api_key st key now iso).result ≠ AdmResult.Admitted r) →
       (get_api_key st key now iso).state.db = st.db
       ∧ ((get_api_key st key now iso).state.tracker = st.tracker
          ∨ (get_api_key st key now iso).state.tracker
              = setTracker st.tracker key
                  ((lookupTracker st.tracker key).filter (fun t => now - t < 60)))
       ∧ (∀ (k2 t : _), t ∈ lookupTracker (get_api_key st key now iso).state.tracker k2 →
            t ∈ lookupTracker st.tracker k2)
       ∧ (get_api_key st key now iso).written = none)
    ∧ ((get_api_key st key now iso).state.db ≠ st.db →
         ∃ r, (get_api_key st key now iso).result = AdmResult.Admitted r) := by
  rcases hdb : lookupDb st.db key with _ | r
  · rw [get_api_key_absent st key now iso hdb]
    exact ⟨fun _ => ⟨rfl, Or.inl rfl, fun _ _ h => h, rfl⟩, fun h => absurd rfl h⟩
  · rcases hact : r.is_active with _ | _
    · rw [get_api_key_inactive st key now iso r hdb hact]
      exact ⟨fun _ => ⟨rfl, Or.inl rfl, fun _ _ h => h, rfl⟩, fun h => absurd rfl h⟩
    · rcases le_or_lt r.requests_per_minute
        (((lookupTracker st.tracker key).filter (fun t => now - t < 60)).length : Int)
        with hq | hq
      · rw [get_api_key_throttled st key now iso r hdb hact hq]
        refine ⟨fun _ => ⟨rfl, Or.inr rfl, ?_, rfl⟩, fun h => absurd rfl h⟩
        intro k2 t hmem
        simp only at hmem
        rw [lookupTracker_setTracker] at hmem
        by_cases hk2 : key = k2
        · rw [if_pos hk2] at hmem
          rw [← hk2]
          exact (List.mem_filter.mp hmem).1
        · rw [if_neg hk2] at hmem
          exact hmem
      · rw [get_api_key_admitted st key now iso r hdb hact hq]
        constructor
        · intro habs
          exact absurd rfl (habs _)
        · intro _
          exact ⟨_, rfl⟩

/-- Witness for C10: a throttled request (quota 0) leaves the database
unchanged. -/
theorem C10_witness :
    (get_api_key ⟨[("k", ⟨"k", "bob", 0, true, 0, "t0", none⟩)], []⟩ "k" 100 "i").result
      = AdmResult.Throttled
    ∧ (get_api_key ⟨[("k", ⟨"k", "bob", 0, true, 0, "t0", none⟩)], []⟩ "k" 100 "i").state.db
      = [("k", ⟨"k", "bob", 0, true, 0, "t0", none⟩)] := by
  have h429 : (get_api_key ⟨[("k", ⟨"k", "bob", 0, true, 0, "t0", none⟩)], []⟩
      "k" 100 "i").result = AdmResult.Throttled := by decide
  refine ⟨h429, ?_⟩
  exact ((C10_failure_preserves_state
      ⟨[("k", ⟨"k", "bob", 0, true, 0, "t0", none⟩)], []⟩ "k" 100 "i").1
    (fun r h => by rw [h429] at h; exact AdmResult.noConfusion h)).1

theorem reachable_master_invariant (mk : String) (hmk : ∀ s, mk ≠ "ytapi_" ++ s)
    (st : AdmState) (h : Reachable mk st) :
    ∃ r, lookupDb st.db mk = some r ∧ r.owner = "master" ∧ r.is_active = true := by
  induction h with
  | boot t =>
    refine ⟨masterRecord mk t, ?_, rfl, rfl⟩
    show lookupDb (ensureMaster mk t []).1 mk = _
    simp [ensureMaster, hasMasterOwner, insertDb, lookupDb]
  | request st key now iso _ ih =>
    obtain ⟨rm, hrm, howner, hactive⟩ := ih
    rcases hdb : lookupDb st.db key with _ | r
    · rw [get_api_key_absent st key now iso hdb]
      exact ⟨rm, hrm, howner, hactive⟩
    · rcases hact : r.is_active with _ | _
      · rw [get_api_key_inactive st key now iso r hdb hact]
        exact ⟨rm, hrm, howner, hactive⟩
      · rcases le_or_lt r.requests_per_minute
          (((lookupTracker st.tracker key).filter (fun t => now - t < 60)).length : Int)
          with hq | hq
        · rw [get_api_key_throttled st key now iso r hdb hact hq]
          exact ⟨rm, hrm, howner, hactive⟩
        · rw [get_api_key_admitted st key now iso r hdb hact hq]
          by_cases hkey : key = mk
          · subst hkey
            rw [hdb] at hrm
            have hr : r = rm := by injection hrm
            refine ⟨{ r with total_requests := r.total_requests + 1,
                             last_used := some iso }, ?_, ?_, ?_⟩
            · show lookupDb (insertDb st.db key _) key = _
              rw [lookupDb_insertDb]; simp
            · show r.owner = "master"
              rw [hr]; exact howner
            · exact hact
          · refine ⟨rm, ?_, howner, hactive⟩
            show lookupDb (insertDb st.db key _) mk = _
            rw [lookupDb_insertDb, if_neg hkey]
            exact hrm
  | generate st suffix owner rpm t _ ih =>
    obtain ⟨rm, hrm, howner, hactive⟩ := ih
    refine ⟨rm, ?_, howner, hactive⟩
    show lookupDb (generate_api_key st.db suffix owner rpm t).2.db mk = _
    simp only [generate_api_key]
    rw [lookupDb_insertDb, if_neg (fun hc => hmk suffix hc.symm)]
    exact hrm
  | toggle st key _ ih =>
    obtain ⟨rm, hrm, howner, hactive⟩ := ih
    rcases hdb : lookupDb st.db key with _ | r
    · refine ⟨rm, ?_, howner, hactive⟩
      show lookupDb (toggle_api_key_status mk st.db key).db mk = _
      simp only [toggle_api_key_status, hdb]
      exact hrm
    · by_cases hkey : key = mk
      · refine ⟨rm, ?_, howner, hactive⟩
        show lookupDb (toggle_api_key_status mk st.db key).db mk = _
        simp only [toggle_api_key_status, hdb, if_pos hkey]
        exact hrm
      · refine ⟨rm, ?_, howner, hactive⟩
        show lookupDb (toggle_api_key_status mk st.db key).db mk = _
        simp only [toggle_api_key_status, hdb, if_neg hkey]
        rw [lookupDb_insertDb, if_neg hkey]
        exact hrm
  | del st key _ ih =>
    obtain ⟨rm, hrm, howner, hactive⟩ := ih
    rcases hdb : lookupDb st.db key with _ | r
    · refine ⟨rm, ?_, howner, hactive⟩
      show lookupDb (delete_api_key mk st.db key).db mk = _
      simp only [delete_api_key, hdb]
      exact hrm
    · by_cases hkey : key = mk
      · refine ⟨rm, ?_, howner, hactive⟩
        show lookupDb (delete_api_key mk st.db key).db mk = _
        simp only [delete_api_key, hdb, if_pos hkey]
        exact hrm
      · refine ⟨rm, ?_, howner, hactive⟩
        show lookupDb (delete_api_key mk st.db key).db mk = _
        simp only [delete_api_key, hdb, if_neg hkey]
        rw [lookupDb_eraseDb _ _ _ (fun hc => hkey hc.symm)]
        exact hrm

/-- C3 (amended): in every state reachable from a fresh start, the record
stored under the configured master key has owner "master" and is active
(so at least one record has owner "master"), and every admin attempt to
toggle or delete the master key returns Protected (400), changes nothing
and writes nothing. The hypothesis says the configured master key is not
of the "ytapi_..." shape the generator produces. -/
theorem C3_master_record_protected (mk : String) (hmk : ∀ s, mk ≠ "ytapi_" ++ s)
    (st : AdmState) (hreach : Reachable mk st) :
    (∃ r, lookupDb st.db mk = some r ∧ r.owner = "master" ∧ r.is_active = true)
    ∧ st.db.any (fun p => p.2.owner == "master") = true
    ∧ toggle_api_key_status mk st.db mk = ⟨AdminStatus.Protected, st.db, none⟩
    ∧ delete_api_key mk st.db mk = ⟨AdminStatus.Protected, st.db, none⟩ := by
  obtain ⟨rm, hrm, howner, hactive⟩ := reachable_master_invariant mk hmk st hreach
  refine ⟨⟨rm, hrm, howner, hactive⟩, ?_, ?_, ?_⟩
  · simp only [List.any_eq_true]
    exact ⟨(mk, rm), lookupDb_mem _ _ _ hrm, by simp [howner]⟩
  · simp [toggle_api_key_status, hrm]
  · simp [delete_api_key, hrm]

/-- Counterexample to C3 as stated: from a fresh start under the source's
default master key, one admin call generating a key with owner "master"
reaches a store holding two records with owner "master", so "exactly one
record has owner == master" fails on a reachable state. -/
theorem C3_counterexample :
    Reachable "your-super-secret-master-key"
      ⟨(generate_api_key (ensureMaster "your-super-secret-master-key" "t0" []).1
          "x" "master" 5 "t1").2.db, []⟩
    ∧ countMasterOwner
        (generate_api_key (ensureMaster "your-super-secret-master-key" "t0" []).1
          "x" "master" 5 "t1").2.db = 2
    ∧ countMasterOwner
        (generate_api_key (ensureMaster "your-super-secret-master-key" "t0" []).1
          "x" "master" 5 "t1").2.db ≠ 1 := by
  refine ⟨?_, by decide, by decide⟩
  exact Reachable.generate ⟨(ensureMaster "your-super-secret-master-key" "t0" []).1, []⟩
    "x" "master" 5 "t1" (Reachable.boot "t0")

/-- Witness for C3: at the concrete master key "m" and the boot state, the
toggle and delete of the master key are Protected no-ops. -/
theorem C3_witness :
    toggle_api_key_status "m" (ensureMaster "m" "t" []).1 "m"
      = ⟨AdminStatus.Protected, (ensureMaster "m" "t" []).1, none⟩
    ∧ delete_api_key "m" (ensureMaster "m" "t" []).1 "m"
      = ⟨AdminStatus.Protected, (ensureMaster "m" "t" []).1, none⟩ := by
  have hmk : ∀ s, ("m" : String) ≠ "ytapi_" ++ s := by
    intro s h
    have hlen := congrArg String.length h
    rw [String.length_append] at hlen
    have h1 : ("m" : String).length = 1 := by decide
    have h2 : ("ytapi_" : String).length = 6 := by decide
    rw [h1, h2] at hlen
    omega
  have h := C3_master_record_protected "m" hmk
    ⟨(ensureMaster "m" "t" []).1, []⟩ (Reachable.boot "t")
  exact ⟨h.2.2.1, h.2.2.2⟩

/-- C9 (amended): the master-key synthesis at startup is idempotent when
the configured master key is non-empty: when line 163's guard sees a
master-owned record (one stored under a truthy, non-empty key) it changes
nothing and writes nothing; when it sees none it inserts an active master
record with quota 100 under the configured master key and writes the
snapshot, and — provided the master key is non-empty — a second run
changes nothing. -/
theorem C9_ensureMaster_idempotent (mk t t2 : String) (db : Db) :
    (hasMasterOwner db = true → ensureMaster mk t db = (db, none))
    ∧ (hasMasterOwner db = false →
        (ensureMaster mk t db).1 = insertDb db mk (masterRecord mk t)
        ∧ lookupDb (ensureMaster mk t db).1 mk = some (masterRecord mk t)
        ∧ (masterRecord mk t).owner = "master"
        ∧ (masterRecord mk t).is_active = true
        ∧ (masterRecord mk t).requests_per_minute = 100
        ∧ (ensureMaster mk t db).2 = some (save_keys_to_file (ensureMaster mk t db).1)
        ∧ (mk ≠ "" →
            ensureMaster mk t2 (ensureMaster mk t db).1
              = ((ensureMaster mk t db).1, none))) := by
  constructor
  · intro h; simp [ensureMaster, h]
  · intro h
    have h1 : (ensureMaster mk t db).1 = insertDb db mk (masterRecord mk t) := by
      simp [ensureMaster, h]
    refine ⟨h1, ?_, rfl, rfl, rfl, ?_, ?_⟩
    · rw [h1, lookupDb_insertDb]; simp
    · simp [ensureMaster, h]
    · intro hk
      have hmaster : hasMasterOwner (ensureMaster mk t db).1 = true := by
        rw [h1]; exact hasMasterOwner_insertDb db mk _ rfl hk
      generalize (ensureMaster mk t db).1 = db2 at hmaster ⊢
      simp [ensureMaster, hmaster]

/-- Counterexample to C9 as stated: with the configured master key equal
to the empty string (the env var set but empty), the first run creates a
master-owned record under the falsy key "", line 163's any() on keys does
not see it, and the second run re-creates the record (fresh created_at)
and re-saves — it does not change nothing. -/
theorem C9_counterexample :
    lookupDb (ensureMaster "" "t0" []).1 "" = some (masterRecord "" "t0")
    ∧ (masterRecord "" "t0").owner = "master"
    ∧ hasMasterOwner (ensureMaster "" "t0" []).1 = false
    ∧ ensureMaster "" "t1" (ensureMaster "" "t0" []).1
        = (insertDb (ensureMaster "" "t0" []).1 "" (masterRecord "" "t1"),
           some (save_keys_to_file
             (insertDb (ensureMaster "" "t0" []).1 "" (masterRecord "" "t1"))))
    ∧ ensureMaster "" "t1" (ensureMaster "" "t0" []).1
        ≠ ((ensureMaster "" "t0" []).1, none) := by decide

/-- Witness for C9: starting from the empty store with the non-empty
master key "m", the second run of the master-key synthesis changes
nothing. -/
theorem C9_witness :
    hasMasterOwner [] = false
    ∧ ("m" : String) ≠ ""
    ∧ ensureMaster "m" "t2" (ensureMaster "m" "t" []).1
        = ((ensureMaster "m" "t" []).1, none) :=
  ⟨rfl, by decide,
   ((C9_ensureMaster_idempotent "m" "t" "t2" []).2 rfl).2.2.2.2.2.2 (by decide)⟩

theorem get_api_key_written_none (st : AdmState) (key : String) (now : Int)
    (iso : String) : (get_api_key st key now iso).written = none := by
  rcases hdb : lookupDb st.db key with _ | r
  · rw [get_api_key_absent st key now iso hdb]
  · rcases hact : r.is_active with _ | _
    · rw [get_api_key_inactive st key now iso r hdb hact]
    · rcases le_or_lt r.requests_per_minute
        (((lookupTracker st.tracker key).filter (fun t => now - t < 60)).length : Int)
        with hq | hq
      · rw [get_api_key_throttled st key now iso r hdb hact hq]
      · rw [get_api_key_admitted st key now iso r hdb hact hq]

/-- C4 (amended): every admin mutation (generate, toggle, delete), the
startup master-key synthesis, and graceful shutdown serialize the entire
mapping to the snapshot; the totalRequests / lastUsedAt update performed
on successful admission deliberately writes no snapshot. -/
theorem C4_mutations_persist :
    (∀ (db : Db) (suffix owner : String) (rpm : Int) (t : String),
       (generate_api_key db suffix owner rpm t).2.written
         = some (save_keys_to_file (generate_api_key db suffix owner rpm t).2.db))
    ∧ (∀ (mk : String) (db : Db) (k : String),
         (toggle_api_key_status mk db k).result = AdminStatus.Ok →
         (toggle_api_key_status mk db k).written
           = some (save_keys_to_file (toggle_api_key_status mk db k).db))
    ∧ (∀ (mk : String) (db : Db) (k : String),
         (delete_api_key mk db k).result = AdminStatus.Ok →
         (delete_api_key mk db k).written
           = some (save_keys_to_file (delete_api_key mk db k).db))
    ∧ (∀ (mk t : String) (db : Db), hasMasterOwner db = false →
         (ensureMaster mk t db).2 = some (save_keys_to_file (ensureMaster mk t db).1))
    ∧ (∀ db : Db, shutdown_event db = some (save_keys_to_file db))
    ∧ (∀ (st : AdmState) (key : String) (now : Int) (iso : String),
         (get_api_key st key now iso).written = none) := by
  refine ⟨fun _ _ _ _ _ => rfl, ?_, ?_, ?_, fun _ => rfl, get_api_key_written_none⟩
  · intro mk db k h
    rcases hdb : lookupDb db k with _ | r
    · simp [toggle_api_key_status, hdb] at h
    · by_cases hk : k = mk
      · subst hk
        simp [toggle_api_key_status, hdb] at h
      · simp [toggle_api_key_status, hdb, hk]
  · intro mk db k h
    rcases hdb : lookupDb db k with _ | r
    · simp [delete_api_key, hdb] at h
    · by_cases hk : k = mk
      · subst hk
        simp [delete_api_key, hdb] at h
      · simp [delete_api_key, hdb, hk]
  · intro mk t db h
    simp [ensureMaster, h]

/-- Counterexample to C4 as stated: a successful admission mutates the
record mapping (totalRequests 0 → 1, lastUsedAt set) but serializes
nothing to the snapshot file. -/
theorem C4_counterexample :
    (get_api_key ⟨[("k", ⟨"k", "alice", 5, true, 0, "t0", none⟩)], []⟩ "k" 100 "i").state.db
      ≠ [("k", ⟨"k", "alice", 5, true, 0, "t0", none⟩)]
    ∧ (get_api_key ⟨[("k", ⟨"k", "alice", 5, true, 0, "t0", none⟩)], []⟩ "k" 100 "i").result
      = AdmResult.Admitted ⟨"k", "alice", 5, true, 1, "t0", some "i"⟩
    ∧ (get_api_key ⟨[("k", ⟨"k", "alice", 5, true, 0, "t0", none⟩)], []⟩ "k" 100 "i").written
      = none := by decide

/-- Witness for C4: toggling an existing non-master key succeeds and
writes the snapshot of the new mapping. -/
theorem C4_witness :
    (toggle_api_key_status "m" [("k", ⟨"k", "alice", 5, true, 0, "t0", none⟩)] "k").result
      = AdminStatus.Ok
    ∧ (toggle_api_key_status "m" [("k", ⟨"k", "alice", 5, true, 0, "t0", none⟩)] "k").written
        = some (save_keys_to_file
            (toggle_api_key_status "m" [("k", ⟨"k", "alice", 5, true, 0, "t0", none⟩)] "k").db) := by
  refine ⟨by decide, ?_⟩
  exact C4_mutations_persist.2.1 "m" [("k", ⟨"k", "alice", 5, true, 0, "t0", none⟩)] "k"
    (by decide)

theorem sweep_all_removable (now : Int) (files : List TempFile)
    (h : ∀ f ∈ files, f.removable = true) :
    cleanup_temp_files_once now files
      = (files.filter
          (fun f => !(f.isFile && decide (f.mtime < now - MAX_FILE_AGE_SECONDS))), false) := by
  induction files with
  | nil => rfl
  | cons f rest ih =>
    have hf : f.removable = true := h f (List.mem_cons_self _ _)
    have hrest := ih (fun g hg => h g (List.mem_cons_of_mem _ hg))
    by_cases hc : (f.isFile && decide (f.mtime < now - MAX_FILE_AGE_SECONDS)) = true
    · have hc2 : f.isFile = true ∧ f.mtime < now - MAX_FILE_AGE_SECONDS := by
        simpa using hc
      obtain ⟨hfi, hm⟩ := hc2
      have hmn : ¬ now ≤ f.mtime + MAX_FILE_AGE_SECONDS := by omega
      simp [cleanup_temp_files_once, hc, hf, hrest, List.filter_cons, hfi, hmn]
    · have hcc : f.isFile = false ∨ now ≤ f.mtime + MAX_FILE_AGE_SECONDS := by
        simp only [Bool.and_eq_true, decide_eq_true_eq, not_and] at hc
        by_cases hfi : f.isFile = true
        · exact Or.inr (by have := hc hfi; omega)
        · exact Or.inl (by simpa using hfi)
      simp [cleanup_temp_files_once, hc, hrest, List.filter_cons, hcc]

theorem sweep_noop (now : Int) (files : List TempFile)
    (h : ∀ f ∈ files, (f.isFile && decide (f.mtime < now - MAX_FILE_AGE_SECONDS)) = false) :
    cleanup_temp_files_once now files = (files, false) := by
  induction files with
  | nil => rfl
  | cons f rest ih =>
    have hf := h f (List.mem_cons_self _ _)
    have hrest := ih (fun g hg => h g (List.mem_cons_of_mem _ hg))
    simp [cleanup_temp_files_once, hf, hrest]

theorem sweep_abort (now : Int) (pre : List TempFile) (f : TempFile)
    (post : List TempFile) (hpre : ∀ g ∈ pre, g.removable = true)
    (hfile : f.isFile = true) (hold : f.mtime < now - MAX_FILE_AGE_SECONDS)
    (hfail : f.removable = false) :
    cleanup_temp_files_once now (pre ++ f :: post)
      = (pre.filter
          (fun g => !(g.isFile && decide (g.mtime < now - MAX_FILE_AGE_SECONDS)))
          ++ f :: post, true) := by
  induction pre with
  | nil =>
    have hc : (f.isFile && decide (f.mtime < now - MAX_FILE_AGE_SECONDS)) = true := by
      simp [hfile, hold]
    simp [cleanup_temp_files_once, hc, hfail]
  | cons g rest ih =>
    have hg : g.removable = true := hpre g (List.mem_cons_self _ _)
    have hrest := ih (fun g2 hg2 => hpre g2 (List.mem_cons_of_mem _ hg2))
    by_cases hc : (g.isFile && decide (g.mtime < now - MAX_FILE_AGE_SECONDS)) = true
    · have hc2 : g.isFile = true ∧ g.mtime < now - MAX_FILE_AGE_SECONDS := by
        simpa using hc
      obtain ⟨hfi, hm⟩ := hc2
      have hmn : ¬ now ≤ g.mtime + MAX_FILE_AGE_SECONDS := by omega
      simp [cleanup_temp_files_once, hc, hg, hrest, List.filter_cons, hfi, hmn]
    · have hcc : g.isFile = false ∨ now ≤ g.mtime + MAX_FILE_AGE_SECONDS := by
        simp only [Bool.and_eq_true, decide_eq_true_eq, not_and] at hc
        by_cases hfi : g.isFile = true
        · exact Or.inr (by have := hc hfi; omega)
        · exact Or.inl (by simpa using hfi)
      simp [cleanup_temp_files_once, hc, hrest, List.filter_cons, hcc]

/-- C5 (amended): in a sweep where every deletion succeeds, exactly the
regular files older than the TTL are deleted and every newer file is left
untouched; a failure deleting one file is logged and aborts the remainder
of that sweep (files after the failing one are not visited); a sweep with
no eligible files changes nothing. -/
theorem C5_reaper_sweep :
    (∀ (now : Int) (files : List TempFile), (∀ f ∈ files, f.removable = true) →
       cleanup_temp_files_once now files
         = (files.filter
              (fun f => !(f.isFile && decide (f.mtime < now - MAX_FILE_AGE_SECONDS))),
            false))
    ∧ (∀ (now : Int) (files : List TempFile),
         (∀ f ∈ files, ¬(f.isFile = true ∧ f.mtime < now - MAX_FILE_AGE_SECONDS)) →
         cleanup_temp_files_once now files = (files, false))
    ∧ (∀ (now : Int) (pre : List TempFile) (f : TempFile) (post : List TempFile),
         (∀ g ∈ pre, g.removable = true) →
         f.isFile = true → f.mtime < now - MAX_FILE_AGE_SECONDS → f.removable = false →
         cleanup_temp_files_once now (pre ++ f :: post)
           = (pre.filter
                (fun g => !(g.isFile && decide (g.mtime < now - MAX_FILE_AGE_SECONDS)))
                ++ f :: post, true)) := by
  refine ⟨sweep_all_removable, ?_, sweep_abort⟩
  intro now files h
  refine sweep_noop now files ?_
  intro f hf
  have := h f hf
  simp only [Bool.and_eq_false_iff, decide_eq_false_iff_not]
  by_cases hfi : f.isFile = true
  · exact Or.inr (fun hm => this ⟨hfi, hm⟩)
  · exact Or.inl (by simpa using hfi)

/-- Counterexample to C5 as stated: with two TTL-expired regular files
where deleting the first fails, the sweep aborts and the second eligible,
deletable file is not deleted in that sweep. -/
theorem C5_counterexample :
    cleanup_temp_files_once 10000 [⟨"a", 0, true, false⟩, ⟨"b", 0, true, true⟩]
      = ([⟨"a", 0, true, false⟩, ⟨"b", 0, true, true⟩], true)
    ∧ (⟨"b", 0, true, true⟩ : TempFile).isFile = true
    ∧ (⟨"b", 0, true, true⟩ : TempFile).mtime < 10000 - MAX_FILE_AGE_SECONDS
    ∧ (⟨"b", 0, true, true⟩ : TempFile).removable = true
    ∧ (⟨"b", 0, true, true⟩ : TempFile)
        ∈ (cleanup_temp_files_once 10000
            [⟨"a", 0, true, false⟩, ⟨"b", 0, true, true⟩]).1 := by decide

/-- Witness for C5: with all deletions succeeding, the expired file is
deleted and the fresh one kept. -/
theorem C5_witness :
    (∀ f ∈ [(⟨"a", 0, true, true⟩ : TempFile), ⟨"b", 9000, true, true⟩],
       f.removable = true)
    ∧ cleanup_temp_files_once 10000 [⟨"a", 0, true, true⟩, ⟨"b", 9000, true, true⟩]
        = ([⟨"b", 9000, true, true⟩], false) := by
  refine ⟨by decide, ?_⟩
  have h := C5_reaper_sweep.1 10000 [⟨"a", 0, true, true⟩, ⟨"b", 9000, true, true⟩]
    (by decide)
  rw [h]
  decide

theorem loadEntries_append_bad (good : List (String × APIKeyData)) (k : String)
    (post : List (String × RawEntry)) (db : Db) :
    loadEntries db (save_keys_to_file good ++ (k, RawEntry.badType) :: post)
      = LoadResult.ok (good.foldl (fun d p => insertDb d p.1 p.2) db) true := by
  induction good generalizing db with
  | nil => rfl
  | cons hd tl ih => exact ih (insertDb db hd.1 hd.2)

theorem loadEntries_append_badValidation (good : List (String × APIKeyData))
    (k : String) (post : List (String × RawEntry)) (db : Db) :
    loadEntries db (save_keys_to_file good ++ (k, RawEntry.badValidation) :: post)
      = LoadResult.fatal := by
  induction good generalizing db with
  | nil => rfl
  | cons hd tl ih => exact ih (insertDb db hd.1 hd.2)

/-- C6 (amended): an absent snapshot file leaves the store unchanged with
no warning. Of malformed content, only what line 92 names is caught:
content that is not JSON at all is logged as a warning and leaves the
(empty) store empty, and content whose entry splat raises a TypeError is
logged as a warning and leaves the store holding exactly the records
parsed before the failing entry — possibly non-empty. Other malformed
content is NOT caught and aborts startup: valid JSON that is not an
object, and object entries whose record construction fails validation. -/
theorem C6_malformed_snapshot :
    (∀ db : Db, load_keys_from_file none db = LoadResult.ok db false)
    ∧ (∀ db : Db, load_keys_from_file (some RawContent.notJson) db
        = LoadResult.ok db true)
    ∧ (∀ (good : List (String × APIKeyData)) (k : String)
         (post : List (String × RawEntry)),
        load_keys_from_file
          (some (RawContent.entries
            (save_keys_to_file good ++ (k, RawEntry.badType) :: post))) []
          = LoadResult.ok (good.foldl (fun d p => insertDb d p.1 p.2) []) true)
    ∧ (∀ db : Db, load_keys_from_file (some RawContent.nonObject) db
        = LoadResult.fatal)
    ∧ (∀ (good : List (String × APIKeyData)) (k : String)
         (post : List (String × RawEntry)),
        load_keys_from_file
          (some (RawContent.entries
            (save_keys_to_file good ++ (k, RawEntry.badValidation) :: post))) []
          = LoadResult.fatal) :=
  ⟨fun _ => rfl, fun _ => rfl,
   fun good k post => loadEntries_append_bad good k post [],
   fun _ => rfl,
   fun good k post => loadEntries_append_badValidation good k post []⟩

/-- Counterexample to C6 as stated: a snapshot whose first entry is a
valid record and whose second raises TypeError loads into a NON-empty
store (the first record survives), refuting "results in an empty store";
and malformed content line 92 does not name — an entry failing record
validation (e.g. the empty object), or valid JSON that is not an object —
propagates out of the loader and aborts startup, refuting "startup never
aborts with a fatal error because of snapshot content". -/
theorem C6_counterexample :
    load_keys_from_file
      (some (RawContent.entries
        [("a", RawEntry.ok ⟨"a", "alice", 5, true, 0, "t0", none⟩),
         ("b", RawEntry.badType)])) []
      = LoadResult.ok [("a", ⟨"a", "alice", 5, true, 0, "t0", none⟩)] true
    ∧ ([("a", (⟨"a", "alice", 5, true, 0, "t0", none⟩ : APIKeyData))] : Db) ≠ []
    ∧ load_keys_from_file
        (some (RawContent.entries [("a", RawEntry.badValidation)])) []
        = LoadResult.fatal
    ∧ load_keys_from_file (some RawContent.nonObject) [] = LoadResult.fatal := by
  decide

/-- C7: saving the mapping and loading the snapshot into an empty store
returns normally and reproduces the identical record set (rate windows
are not part of the snapshot at all). -/
theorem C7_snapshot_roundtrip (db : Db) (h : (db.map Prod.fst).Nodup) :
    load_keys_from_file (some (RawContent.entries (save_keys_to_file db))) []
      = LoadResult.ok db false := by
  show loadEntries [] (save_keys_to_file db) = LoadResult.ok db false
  rw [loadEntries_save, foldl_insertDb db [] h (by simp)]
  simp

/-- Witness for C7: a concrete two-record store round-trips. -/
theorem C7_witness :
    (([("a", (⟨"a", "alice", 5, true, 2, "t0", some "t1"⟩ : APIKeyData)),
       ("b", ⟨"b", "bob", 1, false, 0, "t2", none⟩)] : Db).map Prod.fst).Nodup
    ∧ load_keys_from_file
        (some (RawContent.entries (save_keys_to_file
          [("a", ⟨"a", "alice", 5, true, 2, "t0", some "t1"⟩),
           ("b", ⟨"b", "bob", 1, false, 0, "t2", none⟩)]))) []
        = LoadResult.ok
            [("a", ⟨"a", "alice", 5, true, 2, "t0", some "t1"⟩),
             ("b", ⟨"b", "bob", 1, false, 0, "t2", none⟩)] false := by
  refine ⟨by decide, C7_snapshot_roundtrip _ (by decide)⟩

end YTApi
